import Mathlib

/-!
Shallow embedding of `ppool.py`: a wrapper around `multiprocessing.pool`
that separates stdout output by worker.  The `MultiStdOut` class keeps a
registry (`outs`, a dict) from a worker-identity string to a destination
(the real `sys.stdout`, or a private `SpooledTemporaryFile` buffer), and
the `map` dispatch function resolves pool kind, worker count and
buffering policy before driving the pool's map.

Text is modelled as `List Char`; the Python dict is modelled as an
association list with overwrite-on-set semantics; Python file objects
are modelled by their content together with the current position
(`write` writes at the position, `seek(0)` rewinds, `read` reads from
the position to the end); Python exceptions (`KeyError` from a missing
dict entry, `ValueError` from the pool constructor) become `Except`.
-/

namespace PPool

/-- Text written through the router, modelled as a list of characters. -/
abbrev Str := List Char

/-- A destination registered in `MultiStdOut.outs`: either the real
`sys.stdout` (`o_out`), or a private `SpooledTemporaryFile` buffer with
its content and current file position. -/
inductive Dest where
  | real : Dest
  | buf (content : Str) (pos : Nat) : Dest
deriving DecidableEq

/-- A Python `KeyError` raised by a missing dict entry (`self.outs[self.id]`). -/
inductive WriteError where
  | keyError : WriteError
deriving DecidableEq

/-- The `MultiStdOut.outs` dict, as an association list. -/
abbrev Registry := List (String × Dest)

/-- Dict deletion `del outs[i]` (removes the entry for key `i`). -/
def regDel (o : Registry) (i : String) : Registry :=
  o.filter (fun e => e.1 != i)

/-- Dict assignment `outs[i] = d` (overwrites any previous entry). -/
def regSet (o : Registry) (i : String) (d : Dest) : Registry :=
  (i, d) :: regDel o i

/-- Dict lookup `outs.get(i)` returning `none` when the key is absent. -/
def regGet (o : Registry) (i : String) : Option Dest :=
  (o.find? (fun e => e.1 == i)).map Prod.snd

/-- The shared state of the router: the text accumulated on the real
`sys.stdout` (`sink`) and the identity-to-destination registry (`outs`). -/
structure RouterState where
  sink : Str
  outs : Registry
deriving DecidableEq

/-- Python file write at the current position: overwrites in place and
extends at the end, then advances the position. -/
def fileWrite (c : Str) (p : Nat) (s : Str) : Str :=
  c.take p ++ s ++ c.drop (p + s.length)

/-- `tempfile.SpooledTemporaryFile(mode='w+')`: a fresh empty buffer at
position `0`. -/
def freshBuf : Dest := .buf [] 0

/-- `MultiStdOut.__enter__`: registers the real sink for this identity
when buffering is off or the identity is the `'MainThread'` sentinel,
and a fresh private buffer otherwise. -/
def msEnter (buffered : Bool) (id : String) (st : RouterState) : RouterState :=
  { st with
    outs := regSet st.outs id
      (if !buffered || id == "MainThread" then Dest.real else freshBuf) }

/-- `MultiStdOut.write`: writes to the real sink when `real` is set,
otherwise to the destination registered for the calling identity
(`self.c_out`, which raises `KeyError` when no destination is
registered); returns the underlying write's result (the number of
characters written). -/
def msWrite (real : Bool) (id : String) (s : Str) (st : RouterState) :
    Except WriteError (RouterState × Nat) :=
  if real then
    .ok ({ st with sink := st.sink ++ s }, s.length)
  else
    match regGet st.outs id with
    | none => .error .keyError
    | some .real => .ok ({ st with sink := st.sink ++ s }, s.length)
    | some (.buf c p) =>
        .ok ({ st with
                outs := regSet st.outs id (.buf (fileWrite c p s) (p + s.length)) },
             s.length)

/-- `MultiStdOut._dump`: a no-op when the registered destination is the
real sink; otherwise rewinds the buffer (`seek(0)`), reads its entire
contents and writes them to the real sink as one block, returning the
underlying write's result. -/
def msDump (id : String) (st : RouterState) :
    Except WriteError (RouterState × Option Nat) :=
  match regGet st.outs id with
  | none => .error .keyError
  | some .real => .ok (st, none)
  | some (.buf c _) =>
      .ok ({ sink := st.sink ++ c,
             outs := regSet st.outs id (.buf c c.length) }, some c.length)

/-- `MultiStdOut.__exit__`: first `self._dump()`, then
`del self.outs[self.id]`. -/
def msExit (id : String) (st : RouterState) : Except WriteError RouterState := do
  let (st1, _) ← msDump id st
  match regGet st1.outs id with
  | none => .error .keyError
  | some _ => .ok { st1 with outs := regDel st1.outs id }

/-- A sequence of routed (`real := false`) writes performed by the user
function during one work-item invocation. -/
def runWrites (id : String) (ws : List Str) (st : RouterState) :
    Except WriteError RouterState :=
  match ws with
  | [] => .ok st
  | w :: rest => do
      let (st1, _) ← msWrite false id w st
      runWrites id rest st1

/-- One buffered work-item session, as performed by
`ThreadedCallable.__call__`: `with MultiStdOut(True)`, the user
function's writes, then session exit. -/
def bufferedSession (id : String) (ws : List Str) (st : RouterState) :
    Except WriteError RouterState := do
  let st1 := msEnter true id st
  let st2 ← runWrites id ws st1
  msExit id st2

/-! ## Dispatch model (`map`) -/

/-- The kind of pool `map` selects: `pool.ThreadPool` or `pool.Pool`. -/
inductive PoolKind where
  | thread : PoolKind
  | process : PoolKind
deriving DecidableEq

/-- The work-wrapper variant `map` constructs: `ThreadedCallable` or
`ProcessCallable`. -/
inductive WrapperKind where
  | threadedCallable : WrapperKind
  | processCallable : WrapperKind
deriving DecidableEq

/-- The configuration `map` resolves before creating the pool. -/
structure MapConfig where
  poolKind : PoolKind
  processes : Nat
  buffered : Bool
  wrapper : WrapperKind
deriving DecidableEq

/-- The configuration-resolution part of `map`: pool class from
`threaded`, `poolargs.setdefault('processes', len(iterable))`, the `fg`
override (ThreadPool, one worker, buffering off), and the wrapper choice
`ThreadedCallable if threaded else ProcessCallable`. -/
def resolveMap (threaded fg buffered : Bool) (iterLen : Nat)
    (procArg : Option Nat) : MapConfig :=
  let poolcls := if threaded then PoolKind.thread else PoolKind.process
  let processes := procArg.getD iterLen
  let resolved :=
    if fg then (PoolKind.thread, 1, false) else (poolcls, processes, buffered)
  { poolKind := resolved.1
    processes := resolved.2.1
    buffered := resolved.2.2
    wrapper :=
      if threaded then WrapperKind.threadedCallable
      else WrapperKind.processCallable }

/-- Comparison predicate for the wrapper/pool-kind refinement claim: a
wrapper variant matches a pool kind when thread goes with thread and
process with process. -/
def matchesPool : WrapperKind → PoolKind → Bool
  | .threadedCallable, .thread => true
  | .processCallable, .process => true
  | _, _ => false

/-- A Python `ValueError` raised by the pool constructor. -/
inductive MapError where
  | valueError : MapError
deriving DecidableEq

/-- Contract of the external pool collaborator
(`multiprocessing.pool.Pool` / `ThreadPool` constructors): a worker
count below one is rejected with `ValueError`. -/
def poolNew (processes : Nat) : Except MapError Unit :=
  if processes < 1 then .error .valueError else .ok ()

/-- The per-item results collected by the pool's `map`: the wrappers
pass the user function's return value through unchanged. -/
def poolMapResults (f : α → β) (xs : List α) : List β := xs.map f

/-- The value-level behaviour of `map`: resolve the configuration,
construct the pool (which may reject the worker count), let the pool
collect the per-item results, and fall off the end of the function —
Python returns `None`, so the result is always `none` on success. -/
def mapRun (f : α → β) (xs : List α) (threaded fg buffered : Bool)
    (procArg : Option Nat) : Except MapError (Option (List β)) :=
  let cfg := resolveMap threaded fg buffered xs.length procArg
  do
    let _ ← poolNew cfg.processes
    let _results := poolMapResults f xs
    .ok none

/-! ## Registry lemmas -/

theorem regGet_nil (j : String) : regGet [] j = none := rfl

theorem regGet_cons (e : String × Dest) (rest : Registry) (j : String) :
    regGet (e :: rest) j = if e.1 = j then some e.2 else regGet rest j := by
  by_cases h : e.1 = j
  · simp [regGet, List.find?_cons, h]
  · simp [regGet, List.find?_cons, h]

theorem regDel_cons (e : String × Dest) (rest : Registry) (i : String) :
    regDel (e :: rest) i =
      if e.1 = i then regDel rest i else e :: regDel rest i := by
  by_cases h : e.1 = i
  · simp [regDel, List.filter_cons, h]
  · simp [regDel, List.filter_cons, h]

theorem regGet_regDel (o : Registry) (i j : String) :
    regGet (regDel o i) j = if j = i then none else regGet o j := by
  induction o with
  | nil => simp [regDel, regGet_nil]
  | cons e rest ih =>
    rw [regDel_cons]
    by_cases hei : e.1 = i
    · rw [if_pos hei, ih, regGet_cons]
      by_cases hji : j = i
      · simp [hji]
      · rw [if_neg hji, if_neg hji,
          if_neg (fun h : e.1 = j => hji (h.symm.trans hei))]
    · rw [if_neg hei, regGet_cons, regGet_cons]
      by_cases hej : e.1 = j
      · have hji : ¬ j = i := fun h => hei (hej.trans h)
        rw [if_pos hej, if_neg hji, if_pos hej]
      · rw [if_neg hej, if_neg hej, ih]

theorem regGet_regSet (o : Registry) (i j : String) (d : Dest) :
    regGet (regSet o i d) j = if j = i then some d else regGet o j := by
  rw [regSet, regGet_cons]
  by_cases hji : j = i
  · simp [hji]
  · rw [if_neg (fun h => hji h.symm), if_neg hji, regGet_regDel, if_neg hji]

/-! ## Helper lemmas about the session operations -/

theorem msExit_spec (id : String) (st : RouterState) (d : Dest)
    (h : regGet st.outs id = some d) :
    ∃ st', msExit id st = .ok st' ∧
      regGet st'.outs id = none ∧
      st'.sink = st.sink ++ (match d with | .real => [] | .buf c _ => c) ∧
      ∀ j, j ≠ id → regGet st'.outs j = regGet st.outs j := by
  cases d with
  | real =>
    refine ⟨{ st with outs := regDel st.outs id }, ?_, ?_, ?_, ?_⟩
    · simp [msExit, msDump, h, Bind.bind, Except.bind]
    · simp [regGet_regDel]
    · simp
    · intro j hj
      simp [regGet_regDel, hj]
  | buf c p =>
    refine ⟨⟨st.sink ++ c, regDel (regSet st.outs id (.buf c c.length)) id⟩,
      ?_, ?_, ?_, ?_⟩
    · simp [msExit, msDump, h, Bind.bind, Except.bind, regGet_regSet]
    · simp [regGet_regDel]
    · rfl
    · intro j hj
      simp [regGet_regDel, regGet_regSet, hj]

theorem runWrites_buffered (id : String) (ws : List Str) :
    ∀ (st : RouterState) (c : Str),
      regGet st.outs id = some (.buf c c.length) →
      ∃ st', runWrites id ws st = .ok st' ∧
        st'.sink = st.sink ∧
        regGet st'.outs id = some (.buf (c ++ ws.flatten) (c ++ ws.flatten).length) ∧
        ∀ j, j ≠ id → regGet st'.outs j = regGet st.outs j := by
  induction ws with
  | nil =>
    intro st c h
    exact ⟨st, rfl, rfl, by simpa using h, fun j _ => rfl⟩
  | cons w rest ih =>
    intro st c h
    have hdrop : c.drop (c.length + w.length) = [] :=
      List.drop_eq_nil_of_le (Nat.le_add_right _ _)
    have hfw : fileWrite c c.length w = c ++ w := by
      simp [fileWrite, hdrop]
    have hw : msWrite false id w st =
        .ok ({ st with
                outs := regSet st.outs id
                  (.buf (fileWrite c c.length w) (c.length + w.length)) },
             w.length) := by
      simp [msWrite, h]
    have hreg :
        regGet ({ st with
            outs := regSet st.outs id
              (.buf (fileWrite c c.length w) (c.length + w.length)) } :
              RouterState).outs id =
          some (.buf (c ++ w) (c ++ w).length) := by
      simp [regGet_regSet, hfw]
    obtain ⟨st', hrun, hsink, hget, hothers⟩ := ih _ (c ++ w) hreg
    refine ⟨st', ?_, ?_, ?_, ?_⟩
    · simp [runWrites, hw, Bind.bind, Except.bind, hrun]
    · simpa using hsink
    · simpa [List.append_assoc] using hget
    · intro j hj
      rw [hothers j hj]
      simp [regGet_regSet, hj]

/-! ## Claim theorems: router and sessions -/

/-- C3: on session entry, if buffering is disabled or the computed
worker identity equals the `'MainThread'` sentinel, the real output sink
is registered as that identity's destination; otherwise a fresh private
buffer (empty, at position zero) is allocated and registered. -/
theorem c3_enter_registers (buffered : Bool) (id : String) (st : RouterState) :
    regGet (msEnter buffered id st).outs id =
      some (if buffered = false ∨ id = "MainThread" then Dest.real
            else Dest.buf [] 0) := by
  simp only [msEnter, regGet_regSet, if_pos rfl]
  cases buffered <;> by_cases hm : id = "MainThread" <;>
    simp [hm, freshBuf]

/-- C5: `write` with `real = true` writes to the real sink; otherwise it
writes to the destination registered for the calling identity, returning
the underlying write's result (the character count); and when no
destination is registered and `real` is false, the write fails with a
`KeyError` rather than being silently recovered. -/
theorem c5_write_routes (id : String) (s : Str) (st : RouterState) :
    msWrite true id s st = .ok ({ st with sink := st.sink ++ s }, s.length) ∧
    (regGet st.outs id = none → msWrite false id s st = .error .keyError) ∧
    (regGet st.outs id = some .real →
      msWrite false id s st = .ok ({ st with sink := st.sink ++ s }, s.length)) ∧
    (∀ c p, regGet st.outs id = some (.buf c p) →
      msWrite false id s st =
        .ok ({ st with
                outs := regSet st.outs id
                  (.buf (fileWrite c p s) (p + s.length)) }, s.length)) := by
  refine ⟨rfl, ?_, ?_, ?_⟩
  · intro h; simp [msWrite, h]
  · intro h; simp [msWrite, h]
  · intro c p h; simp [msWrite, h]

/-- C5 witness: writing with no registered destination fails with a
`KeyError` on a concrete state. -/
theorem c5_write_routes_witness :
    msWrite false "Thread-1" ['x'] ⟨[], []⟩ = .error .keyError :=
  (c5_write_routes "Thread-1" ['x'] ⟨[], []⟩).2.1 rfl

/-- C4: on session exit, if the registered destination for the current
identity is the real sink nothing is written to the real sink, otherwise
the buffer's entire contents are written to the real sink as one block;
and in either case the identity's registry entry is then removed (the
flush happens before the removal: `__exit__` runs `_dump` first, then
deletes the entry). -/
theorem c4_exit_flushes_then_releases (id : String) (st : RouterState)
    (d : Dest) (h : regGet st.outs id = some d) :
    ∃ st', msExit id st = .ok st' ∧
      regGet st'.outs id = none ∧
      st'.sink = st.sink ++ (match d with | .real => [] | .buf c _ => c) := by
  obtain ⟨st', h1, h2, h3, _⟩ := msExit_spec id st d h
  exact ⟨st', h1, h2, h3⟩

/-- C4 witness: a concrete buffered session exit flushes the buffer's
contents and removes the registry entry. -/
theorem c4_exit_flushes_then_releases_witness :
    ∃ st', msExit "W" ⟨['s'], [("W", Dest.buf ['a', 'b'] 2)]⟩ = .ok st' ∧
      regGet st'.outs "W" = none ∧
      st'.sink = ['s'] ++
        (match Dest.buf ['a', 'b'] 2 with
          | Dest.real => ([] : Str)
          | Dest.buf c _ => c) :=
  c4_exit_flushes_then_releases "W" ⟨['s'], [("W", Dest.buf ['a', 'b'] 2)]⟩
    (Dest.buf ['a', 'b'] 2) rfl

/-- C1: for any single buffered work-item session, after a sequence of
write calls followed by session exit, the block written to the real sink
equals, character for character and in order, the concatenation of the
strings passed to those write calls; the session's registry entry is
gone afterwards. -/
theorem c1_order_preservation (id : String) (ws : List Str)
    (st : RouterState) (h : id ≠ "MainThread") :
    ∃ st', bufferedSession id ws st = .ok st' ∧
      st'.sink = st.sink ++ ws.flatten ∧
      regGet st'.outs id = none := by
  have henter : regGet (msEnter true id st).outs id = some (.buf [] 0) := by
    simp [msEnter, regGet_regSet, h, freshBuf]
  obtain ⟨st2, hrun, hsink2, hget2, _⟩ :=
    runWrites_buffered id ws (msEnter true id st) [] henter
  have hget2' : regGet st2.outs id = some (.buf ws.flatten ws.flatten.length) := by
    simpa using hget2
  obtain ⟨st3, hexit, hnone, hsink3, _⟩ :=
    msExit_spec id st2 (.buf ws.flatten ws.flatten.length) hget2'
  refine ⟨st3, ?_, ?_, hnone⟩
  · simp [bufferedSession, Bind.bind, Except.bind, hrun, hexit]
  · rw [hsink3, hsink2]
    rfl

/-- C1 witness: a concrete buffered session with two writes flushes
their concatenation as one block. -/
theorem c1_order_preservation_witness :
    ∃ st', bufferedSession "Thread-1" [['a', 'b'], ['c']] ⟨['z'], []⟩ =
        .ok st' ∧
      st'.sink = ['z'] ++ [['a', 'b'], ['c']].flatten ∧
      regGet st'.outs "Thread-1" = none :=
  c1_order_preservation "Thread-1" [['a', 'b'], ['c']] ⟨['z'], []⟩ (by decide)

/-! ## Claim theorems: dispatch (`map`) -/

/-- C2: for every call to `map` with `fg = true`, the dispatch uses a
thread pool with exactly one worker and buffering disabled, regardless
of the values the caller passed for `threaded`, `buffered`, and any
caller-supplied worker count. -/
theorem c2_fg_forces_thread_one_unbuffered (threaded buffered : Bool)
    (len : Nat) (procArg : Option Nat) :
    (resolveMap threaded true buffered len procArg).poolKind = PoolKind.thread ∧
    (resolveMap threaded true buffered len procArg).processes = 1 ∧
    (resolveMap threaded true buffered len procArg).buffered = false :=
  ⟨rfl, rfl, rfl⟩

/-- C6 counterexample: with `threaded = false` and `fg = true`, the pool
actually selected is a thread pool but the wrapper handed to it is the
process variant (`ProcessCallable`), so the wrapper does not match the
selected pool kind. -/
theorem c6_counterexample :
    matchesPool (resolveMap false true true 3 none).wrapper
      (resolveMap false true true 3 none).poolKind = false := by
  decide

/-- C6 (amended): the wrapper variant follows the `threaded` flag alone,
so it matches the pool kind actually selected in every combination of
`threaded` and `fg` except `threaded = false` with `fg = true`. -/
theorem c6_wrapper_matches_pool (threaded fg buffered : Bool) (len : Nat)
    (procArg : Option Nat) (h : threaded = true ∨ fg = false) :
    matchesPool (resolveMap threaded fg buffered len procArg).wrapper
      (resolveMap threaded fg buffered len procArg).poolKind = true := by
  rcases h with h | h <;> subst h
  · cases fg <;> rfl
  · cases threaded <;> rfl

/-- C6 witness: a concrete non-foreground call where the wrapper matches
the selected pool kind. -/
theorem c6_wrapper_matches_pool_witness :
    matchesPool (resolveMap false false true 2 none).wrapper
      (resolveMap false false true 2 none).poolKind = true :=
  c6_wrapper_matches_pool false false true 2 none (Or.inr rfl)

/-- C8: outside foreground mode, when the caller supplies no explicit
worker count the pool's worker count defaults to the number of input
items, and a caller-supplied worker count is left unchanged. -/
theorem c8_worker_count_default (threaded buffered : Bool) (len n : Nat) :
    (resolveMap threaded false buffered len none).processes = len ∧
    (resolveMap threaded false buffered len (some n)).processes = n :=
  ⟨rfl, rfl⟩

/-- C9: whenever `map` completes, it returns `None`; the per-item return
values are collected by the pool's map (the wrappers pass the user
function's result through) but discarded, never propagated. -/
theorem c9_map_returns_none {α β : Type} (f : α → β) (xs : List α)
    (threaded fg buffered : Bool) (procArg : Option Nat) (r : Option (List β))
    (h : mapRun f xs threaded fg buffered procArg = .ok r) :
    r = none ∧ poolMapResults f xs = xs.map f := by
  refine ⟨?_, rfl⟩
  rcases hp : poolNew (resolveMap threaded fg buffered xs.length procArg).processes
    with e | u
  · simp [mapRun, hp, Bind.bind, Except.bind] at h
  · simp [mapRun, hp, Bind.bind, Except.bind] at h
    exact h.symm

/-- C9 witness: a concrete completed call returning `none`. -/
theorem c9_map_returns_none_witness :
    (none : Option (List Nat)) = none ∧
      poolMapResults Nat.succ [1, 2] = [1, 2].map Nat.succ :=
  c9_map_returns_none Nat.succ [1, 2] true false true none none rfl

/-- C10 counterexample: a `map` call with an empty input collection and
no caller-supplied worker count that does not fail — with `fg = true`
the worker count is forced to one, the pool is constructed and the call
completes. -/
theorem c10_counterexample :
    mapRun (fun n : Nat => n) ([] : List Nat) true true true none =
      .ok none := rfl

/-- C10 (amended): outside foreground mode, a `map` call with an empty
input collection and no caller-supplied worker count fails when
constructing the pool — the defaulted worker count is zero, which the
pool rejects with `ValueError` — before the user function is ever
invoked. -/
theorem c10_empty_input_fails {α β : Type} (f : α → β)
    (threaded buffered : Bool) :
    mapRun f ([] : List α) threaded false buffered none =
      .error .valueError := rfl

/-! ## Trace model for whole `map` runs

A `map` call interleaves session entries, routed writes and session
exits from the orchestrating context and every worker; the `with`
statements in `map` and in the wrappers guarantee that every session
entered is later exited.  A run is modelled as a list of such events,
in the order the router's lock serialises them. -/

/-- One registry-relevant event during a `map` run. -/
inductive Event where
  | enterEv (id : String) (buffered : Bool) : Event
  | writeEv (id : String) (s : Str) : Event
  | exitEv (id : String) : Event
deriving DecidableEq

/-- The identity performing an event. -/
def eventId : Event → String
  | .enterEv j _ => j
  | .writeEv j _ => j
  | .exitEv j => j

/-- The state transition of one event. -/
def stepE (e : Event) (st : RouterState) : Except WriteError RouterState :=
  match e with
  | .enterEv j b => .ok (msEnter b j st)
  | .writeEv j s => do
      let (st1, _) ← msWrite false j s st
      .ok st1
  | .exitEv j => msExit j st

/-- Running a whole event trace. -/
def runE (t : List Event) (st : RouterState) : Except WriteError RouterState :=
  match t with
  | [] => .ok st
  | e :: rest => do runE rest (← stepE e st)

/-- The last registry-affecting event of identity `i` in a trace:
`some true` when it is a session entry, `some false` when it is a
session exit, `none` when identity `i` never enters or exits. -/
def lastReg (i : String) : List Event → Option Bool
  | [] => none
  | e :: rest =>
      match lastReg i rest with
      | some b => some b
      | none =>
          match e with
          | .enterEv j _ => if j = i then some true else none
          | .exitEv j => if j = i then some false else none
          | .writeEv _ _ => none

theorem stepE_regGet_other (e : Event) (st st1 : RouterState) (i : String)
    (hok : stepE e st = .ok st1) (hne : eventId e ≠ i) :
    regGet st1.outs i = regGet st.outs i := by
  cases e with
  | enterEv j b =>
    have hji : ¬ i = j := fun h => hne h.symm
    cases hok
    simp [msEnter, regGet_regSet, hji]
  | writeEv j s =>
    have hji : ¬ i = j := fun h => hne h.symm
    rcases hg : regGet st.outs j with _ | d
    · simp [stepE, msWrite, hg, Bind.bind, Except.bind] at hok
    · cases d with
      | real =>
        simp [stepE, msWrite, hg, Bind.bind, Except.bind] at hok
        simp [← hok]
      | buf c p =>
        simp [stepE, msWrite, hg, Bind.bind, Except.bind] at hok
        simp [← hok, regGet_regSet, hji]
  | exitEv j =>
    have hji : ¬ i = j := fun h => hne h.symm
    rcases hg : regGet st.outs j with _ | d
    · simp [stepE, msExit, msDump, hg, Bind.bind, Except.bind] at hok
    · cases d with
      | real =>
        simp [stepE, msExit, msDump, hg, Bind.bind, Except.bind] at hok
        simp [← hok, regGet_regDel, hji]
      | buf c p =>
        simp [stepE, msExit, msDump, hg, Bind.bind, Except.bind,
          regGet_regSet] at hok
        simp [← hok, regGet_regDel, regGet_regSet, hji]

theorem msExit_regGet_self (j : String) (st st1 : RouterState)
    (hok : msExit j st = .ok st1) :
    regGet st1.outs j = none := by
  rcases hg : regGet st.outs j with _ | d
  · simp [msExit, msDump, hg, Bind.bind, Except.bind] at hok
  · cases d with
    | real =>
      simp [msExit, msDump, hg, Bind.bind, Except.bind] at hok
      simp [← hok, regGet_regDel]
    | buf c p =>
      simp [msExit, msDump, hg, Bind.bind, Except.bind, regGet_regSet] at hok
      simp [← hok, regGet_regDel]

theorem runE_preserves_none (t : List Event) :
    ∀ (st st' : RouterState) (i : String), lastReg i t = none →
      regGet st.outs i = none → runE t st = .ok st' →
      regGet st'.outs i = none := by
  induction t with
  | nil =>
    intro st st' i _ hnone hrun
    cases hrun
    exact hnone
  | cons e rest ih =>
    intro st st' i hlast hnone hrun
    rcases hs : stepE e st with _ | st1
    · simp [runE, hs, Bind.bind, Except.bind] at hrun
    · have hrun' : runE rest st1 = .ok st' := by
        simpa [runE, hs, Bind.bind, Except.bind] using hrun
      have hlast' : lastReg i rest = none := by
        rcases hlr : lastReg i rest with _ | b
        · rfl
        · simp [lastReg, hlr] at hlast
      have hstep : regGet st1.outs i = none := by
        by_cases hei : eventId e = i
        · cases e with
          | enterEv j b =>
            have hji : j = i := hei
            simp [lastReg, hlast', hji] at hlast
          | writeEv j s =>
            have hji : j = i := hei
            subst hji
            simp [stepE, msWrite, hnone, Bind.bind, Except.bind] at hs
          | exitEv j =>
            have hji : j = i := hei
            subst hji
            exact msExit_regGet_self j st st1 hs
        · rw [stepE_regGet_other e st st1 i hs hei]
          exact hnone
      exact ih st1 st' i hlast' hstep hrun'

/-- C7: after a completed `map` run — modelled as an event trace in
which, for a given worker identity, the last session action is an exit
(the identity was used during the call and all its sessions, opened by
the `with` blocks in `map` and the wrappers, were closed) — the router's
registry contains no entry for that identity. -/
theorem c7_no_leakage (t : List Event) (st st' : RouterState) (i : String)
    (hrun : runE t st = .ok st') (hclosed : lastReg i t = some false) :
    regGet st'.outs i = none := by
  induction t generalizing st with
  | nil => simp [lastReg] at hclosed
  | cons e rest ih =>
    rcases hs : stepE e st with _ | st1
    · simp [runE, hs, Bind.bind, Except.bind] at hrun
    · have hrun' : runE rest st1 = .ok st' := by
        simpa [runE, hs, Bind.bind, Except.bind] using hrun
      rcases hlr : lastReg i rest with _ | b
      · have hexit : e = Event.exitEv i := by
          cases e with
          | enterEv j b =>
            simp [lastReg, hlr] at hclosed
          | writeEv j s => simp [lastReg, hlr] at hclosed
          | exitEv j =>
            by_cases hji : j = i
            · rw [hji]
            · simp [lastReg, hlr, hji] at hclosed
        subst hexit
        have hself : regGet st1.outs i = none :=
          msExit_regGet_self i st st1 hs
        exact runE_preserves_none rest st1 st' i hlr hself hrun'
      · have hb : b = false := by
          simpa [lastReg, hlr] using hclosed
        subst hb
        exact ih st1 hrun' hlr

/-- C7 witness: a concrete run — the orchestrating `'MainThread'`
session around one buffered worker session — leaves no registry entry
for the worker identity. -/
theorem c7_no_leakage_witness :
    regGet (RouterState.mk ['a'] []).outs "W1" = none :=
  c7_no_leakage
    [.enterEv "MainThread" true, .enterEv "W1" true, .writeEv "W1" ['a'],
     .exitEv "W1", .exitEv "MainThread"]
    ⟨[], []⟩ ⟨['a'], []⟩ "W1" rfl (by decide)

end PPool
